import Mathlib

/-!
Shallow embedding of the art-commission canister (`src/index.ts`).

Principals are modelled as `Nat` (opaque identifiers), `nat64` as `Nat`,
`int8` as `Int` (range enforcement happens at the serialization boundary,
outside the logic embedded here), `text` as `String`, and each
`StableBTreeMap` as an association list with lookup/insert.  The external
identity generator is modelled by passing the generated id as an explicit
argument; its assumed uniqueness becomes a freshness hypothesis on the
step relation.
-/

namespace ArtCommission

structure Artist where
  artistID : Nat
  artistName : String
  price : Nat
  number_of_revision : Int
deriving DecidableEq

structure Customer where
  customerID : Nat
  customerName : String
deriving DecidableEq

structure Status where
  Pending : Bool
  Accepted : Bool
  Rejected : Bool
  ArtworkSubmitted : Bool
  Approved : Bool
  Cancelled : Bool
deriving DecidableEq

structure Commission where
  commissionID : Nat
  customerID : Nat
  artistID : Nat
  price : Nat
  remaining_revision : Int
  artURL : String
  status : Status
deriving DecidableEq

inductive Error where
  | NotFound : String → Error
  | NoRemainingRevision : String → Error
  | InvalidTransaction : String → Error
deriving DecidableEq

instance {ε α : Type} [DecidableEq ε] [DecidableEq α] : DecidableEq (Except ε α) := fun a b =>
  match a, b with
  | .ok a, .ok b =>
    if h : a = b then .isTrue (congrArg Except.ok h) else .isFalse (fun hc => h (Except.ok.inj hc))
  | .error a, .error b =>
    if h : a = b then .isTrue (congrArg Except.error h) else .isFalse (fun hc => h (Except.error.inj hc))
  | .ok _, .error _ => .isFalse (fun hc => Except.noConfusion hc)
  | .error _, .ok _ => .isFalse (fun hc => Except.noConfusion hc)

/-- Association-list model of `StableBTreeMap.get`. -/
def mapGet {α : Type} (m : List (Nat × α)) (k : Nat) : Option α :=
  match m with
  | [] => none
  | (k', v) :: rest => if k' = k then some v else mapGet rest k

/-- Association-list model of `StableBTreeMap.insert` (insert or overwrite). -/
def mapInsert {α : Type} (m : List (Nat × α)) (k : Nat) (v : α) : List (Nat × α) :=
  match m with
  | [] => [(k, v)]
  | (k', v') :: rest => if k' = k then (k, v) :: rest else (k', v') :: mapInsert rest k v

/-- The three stable maps of the canister. -/
structure CanisterState where
  artists : List (Nat × Artist)
  customers : List (Nat × Customer)
  commissions : List (Nat × Commission)
deriving DecidableEq

def initState : CanisterState := ⟨[], [], []⟩

/-- `checkCommissionValidity` from `src/index.ts`. -/
def checkCommissionValidity (status : Status) (methodType : String) : String :=
  let commissionValidity :=
    if status.Cancelled = true then "commission has been cancelled"
    else if status.Approved = true then "commission has ended"
    else if status.Rejected = true then "commission has been rejected"
    else if status.Accepted = false ∧ (methodType ≠ "accept commission" ∧ methodType ≠ "reject commission") then "commission has yet to be accepted"
    else if status.Accepted = true ∧ (methodType = "accept commission" ∨ methodType = "reject commission") then "commission has been accepted"
    else if status.ArtworkSubmitted = false ∧ (methodType = "approve commission" ∨ methodType = "request revision") then "artwork not finished"
    else "valid"
  if commissionValidity ≠ "valid" then "cannot " ++ methodType ++ ": " ++ commissionValidity
  else "valid"

/-- `createArtist`: no validation is performed in the source; the record is
always inserted and returned. -/
def createArtist (s : CanisterState) (artistID : Nat) (artistName : String)
    (price : Nat) (number_of_revision : Int) : CanisterState × Artist :=
  let artist : Artist := ⟨artistID, artistName, price, number_of_revision⟩
  ({ s with artists := mapInsert s.artists artistID artist }, artist)

/-- `createCustomer`: no validation is performed in the source. -/
def createCustomer (s : CanisterState) (customerID : Nat) (customerName : String) :
    CanisterState × Customer :=
  let customer : Customer := ⟨customerID, customerName⟩
  ({ s with customers := mapInsert s.customers customerID customer }, customer)

/-- `createCommission`: looks up artist and customer, then inserts a fresh
commission whose price comes from the artist record (the `...artist` spread)
and whose revision budget snapshots `artist.number_of_revision`. -/
def createCommission (s : CanisterState) (commissionID : Nat)
    (artistID : Nat) (customerID : Nat) : CanisterState × Except Error Commission :=
  match mapGet s.artists artistID with
  | none => (s, .error (.NotFound ("cannot create the commission: artist=" ++ toString artistID ++ " not found")))
  | some artist =>
    match mapGet s.customers customerID with
    | none => (s, .error (.NotFound ("cannot create the commission: customer=" ++ toString customerID ++ " not found")))
    | some _ =>
      let commission : Commission :=
        { commissionID := commissionID
          customerID := customerID
          artistID := artist.artistID
          price := artist.price
          remaining_revision := artist.number_of_revision
          artURL := ""
          status :=
            { Pending := true
              Accepted := false
              Rejected := false
              ArtworkSubmitted := false
              Approved := false
              Cancelled := false } }
      ({ s with commissions := mapInsert s.commissions commissionID commission }, .ok commission)

/-- `approveCommission` from `src/index.ts`. -/
def approveCommission (s : CanisterState) (commissionID : Nat) :
    CanisterState × Except Error Commission :=
  match mapGet s.commissions commissionID with
  | none => (s, .error (.NotFound ("cannot approve commission: commission=" ++ toString commissionID ++ " not found")))
  | some commission =>
    let commissionValidity := checkCommissionValidity commission.status "approve commission"
    if commissionValidity ≠ "valid" then (s, .error (.InvalidTransaction commissionValidity))
    else
      let commission := { commission with status := { commission.status with Approved := true } }
      ({ s with commissions := mapInsert s.commissions commissionID commission }, .ok commission)

/-- `requestRevision` from `src/index.ts`. -/
def requestRevision (s : CanisterState) (commissionID : Nat) :
    CanisterState × Except Error Commission :=
  match mapGet s.commissions commissionID with
  | none => (s, .error (.NotFound ("cannot request revision: commission=" ++ toString commissionID ++ " not found")))
  | some commission =>
    let commissionValidity := checkCommissionValidity commission.status "request revision"
    if commissionValidity ≠ "valid" then (s, .error (.InvalidTransaction commissionValidity))
    else if commission.remaining_revision = 0 then
      (s, .error (.NoRemainingRevision "no more revision can be made"))
    else
      let commission := { commission with
        remaining_revision := commission.remaining_revision - 1,
        status := { commission.status with ArtworkSubmitted := false } }
      ({ s with commissions := mapInsert s.commissions commissionID commission }, .ok commission)

/-- `acceptCommission` from `src/index.ts`. -/
def acceptCommission (s : CanisterState) (commissionID : Nat) :
    CanisterState × Except Error Commission :=
  match mapGet s.commissions commissionID with
  | none => (s, .error (.NotFound ("cannot accept commission: commission=" ++ toString commissionID ++ " not found")))
  | some commission =>
    let commissionValidity := checkCommissionValidity commission.status "accept commission"
    if commissionValidity ≠ "valid" then (s, .error (.InvalidTransaction commissionValidity))
    else
      let commission := { commission with status := { commission.status with Accepted := true } }
      ({ s with commissions := mapInsert s.commissions commissionID commission }, .ok commission)

/-- `rejectCommission` from `src/index.ts`. -/
def rejectCommission (s : CanisterState) (commissionID : Nat) :
    CanisterState × Except Error Commission :=
  match mapGet s.commissions commissionID with
  | none => (s, .error (.NotFound ("cannot reject commission: commission=" ++ toString commissionID ++ " not found")))
  | some commission =>
    let commissionValidity := checkCommissionValidity commission.status "reject commission"
    if commissionValidity ≠ "valid" then (s, .error (.InvalidTransaction commissionValidity))
    else
      let commission := { commission with status := { commission.status with Rejected := true } }
      ({ s with commissions := mapInsert s.commissions commissionID commission }, .ok commission)

/-- `submitArtwork` from `src/index.ts`: note the source performs no
validation of `artURL`; it stores whatever url was passed. -/
def submitArtwork (s : CanisterState) (commissionID : Nat) (artURL : String) :
    CanisterState × Except Error Commission :=
  match mapGet s.commissions commissionID with
  | none => (s, .error (.NotFound ("cannot submit artwork: commission=" ++ toString commissionID ++ " not found")))
  | some commission =>
    let commissionValidity := checkCommissionValidity commission.status "submit artwork"
    if commissionValidity ≠ "valid" then (s, .error (.InvalidTransaction commissionValidity))
    else
      let commission := { commission with
        artURL := artURL,
        status := { commission.status with ArtworkSubmitted := true } }
      ({ s with commissions := mapInsert s.commissions commissionID commission }, .ok commission)

/-- `cancelCommission` from `src/index.ts`. -/
def cancelCommission (s : CanisterState) (commissionID : Nat) :
    CanisterState × Except Error Commission :=
  match mapGet s.commissions commissionID with
  | none => (s, .error (.NotFound ("cannot cancel commission: commission=" ++ toString commissionID ++ " not found")))
  | some commission =>
    let commissionValidity := checkCommissionValidity commission.status "cancel commission"
    if commissionValidity ≠ "valid" then (s, .error (.InvalidTransaction commissionValidity))
    else
      let commission := { commission with status := { commission.status with Cancelled := true } }
      ({ s with commissions := mapInsert s.commissions commissionID commission }, .ok commission)

/-- Outcome of the lifecycle guard as described by the specification. -/
inductive GuardResult where
  | Permitted : GuardResult
  | Denied : String → GuardResult
deriving DecidableEq

/-- The guard exactly as the specification words it: a precedence-ordered
chain of denial rules, first match wins, otherwise permitted.  Operations
are identified by the method strings the facade passes to the guard.
This definition follows the spec text and is compared against
`checkCommissionValidity`, which is translated from the source. -/
def guardSpec (status : Status) (operation : String) : GuardResult :=
  if status.Cancelled = true then .Denied "commission has been cancelled"
  else if status.Approved = true then .Denied "commission has ended"
  else if status.Rejected = true then .Denied "commission has been rejected"
  else if operation ≠ "accept commission" ∧ operation ≠ "reject commission" ∧ status.Accepted = false then
    .Denied "commission has yet to be accepted"
  else if status.Accepted = true ∧ (operation = "accept commission" ∨ operation = "reject commission") then
    .Denied "commission has been accepted"
  else if (operation = "approve commission" ∨ operation = "request revision") ∧ status.ArtworkSubmitted = false then
    .Denied "artwork not finished"
  else .Permitted

/-- How the facade renders a guard outcome as the validity string. -/
def renderGuard (g : GuardResult) (operation : String) : String :=
  match g with
  | .Permitted => "valid"
  | .Denied reason => "cannot " ++ operation ++ ": " ++ reason

lemma mapGet_mapInsert_self {α : Type} (m : List (Nat × α)) (k : Nat) (v : α) :
    mapGet (mapInsert m k v) k = some v := by
  induction m with
  | nil => simp [mapGet, mapInsert]
  | cons hd tl ih =>
    obtain ⟨k', v'⟩ := hd
    by_cases h : k' = k <;> simp [mapGet, mapInsert, h, ih]

lemma mapGet_mapInsert_ne {α : Type} (m : List (Nat × α)) (k k' : Nat) (v : α)
    (h : k' ≠ k) : mapGet (mapInsert m k v) k' = mapGet m k' := by
  have h' : ¬k = k' := fun hh => h hh.symm
  induction m with
  | nil => simp [mapGet, mapInsert, h']
  | cons hd tl ih =>
    obtain ⟨k2, v2⟩ := hd
    by_cases h2 : k2 = k
    · subst h2
      simp [mapGet, mapInsert, h']
    · simp [mapGet, mapInsert, h2, ih]

lemma mapGet_mapInsert_cases {α : Type} (m : List (Nat × α)) (k k' : Nat) (v a : α)
    (h : mapGet (mapInsert m k v) k' = some a) :
    (k' = k ∧ a = v) ∨ mapGet m k' = some a := by
  by_cases hk : k' = k
  · subst hk
    rw [mapGet_mapInsert_self] at h
    exact Or.inl ⟨rfl, (Option.some_inj.mp h).symm⟩
  · rw [mapGet_mapInsert_ne m k k' v hk] at h
    exact Or.inr h

lemma length_mapInsert_of_fresh {α : Type} (m : List (Nat × α)) (k : Nat) (v : α)
    (h : mapGet m k = none) : (mapInsert m k v).length = m.length + 1 := by
  induction m with
  | nil => simp [mapInsert]
  | cons hd tl ih =>
    obtain ⟨k', v'⟩ := hd
    by_cases hk : k' = k
    · simp [mapGet, hk] at h
    · simp only [mapGet, hk, if_false] at h
      simp [mapInsert, hk, ih h]

lemma cannot_ne_valid (operation reason : String) :
    "cannot " ++ operation ++ ": " ++ reason ≠ "valid" := by
  intro h
  have hlen := congrArg String.length h
  rw [String.length_append, String.length_append, String.length_append] at hlen
  have h1 : ("cannot " : String).length = 7 := by decide
  have h2 : (": " : String).length = 2 := by decide
  have h3 : ("valid" : String).length = 5 := by decide
  omega

/-- The source guard agrees with the spec's precedence chain pointwise. -/
lemma checkCommissionValidity_eq_renderGuard (status : Status) (methodType : String) :
    checkCommissionValidity status methodType = renderGuard (guardSpec status methodType) methodType := by
  obtain ⟨P, A, R, Sub, Ap, Ca⟩ := status
  by_cases hA : methodType = "accept commission"
  · subst hA
    cases P <;> cases A <;> cases R <;> cases Sub <;> cases Ap <;> cases Ca <;> decide
  by_cases hB : methodType = "reject commission"
  · subst hB
    cases P <;> cases A <;> cases R <;> cases Sub <;> cases Ap <;> cases Ca <;> decide
  by_cases hC : methodType = "approve commission"
  · subst hC
    cases P <;> cases A <;> cases R <;> cases Sub <;> cases Ap <;> cases Ca <;> decide
  by_cases hD : methodType = "request revision"
  · subst hD
    cases P <;> cases A <;> cases R <;> cases Sub <;> cases Ap <;> cases Ca <;> decide
  · have d1 : ("commission has been cancelled" : String) ≠ "valid" := by decide
    have d2 : ("commission has ended" : String) ≠ "valid" := by decide
    have d3 : ("commission has been rejected" : String) ≠ "valid" := by decide
    have d4 : ("commission has yet to be accepted" : String) ≠ "valid" := by decide
    have d5 : ("commission has been accepted" : String) ≠ "valid" := by decide
    have d6 : ("artwork not finished" : String) ≠ "valid" := by decide
    cases A <;> cases R <;> cases Sub <;> cases Ap <;> cases Ca <;>
      simp [checkCommissionValidity, guardSpec, renderGuard, hA, hB, hC, hD, d1, d2, d3, d4, d5, d6]

lemma guard_denied_cancelled (status : Status) (methodType : String)
    (h : status.Cancelled = true) :
    checkCommissionValidity status methodType =
      "cannot " ++ methodType ++ ": " ++ "commission has been cancelled" := by
  rw [checkCommissionValidity_eq_renderGuard]
  simp [guardSpec, renderGuard, h]

lemma guard_denied_approved (status : Status) (methodType : String)
    (hCa : status.Cancelled = false) (hAp : status.Approved = true) :
    checkCommissionValidity status methodType =
      "cannot " ++ methodType ++ ": " ++ "commission has ended" := by
  rw [checkCommissionValidity_eq_renderGuard]
  simp [guardSpec, renderGuard, hCa, hAp]

lemma guard_denied_rejected (status : Status) (methodType : String)
    (hCa : status.Cancelled = false) (hAp : status.Approved = false)
    (hR : status.Rejected = true) :
    checkCommissionValidity status methodType =
      "cannot " ++ methodType ++ ": " ++ "commission has been rejected" := by
  rw [checkCommissionValidity_eq_renderGuard]
  simp [guardSpec, renderGuard, hCa, hAp, hR]

lemma guard_denied_not_accepted (status : Status) (methodType : String)
    (hCa : status.Cancelled = false) (hAp : status.Approved = false)
    (hR : status.Rejected = false) (hAcc : status.Accepted = false)
    (hm1 : methodType ≠ "accept commission") (hm2 : methodType ≠ "reject commission") :
    checkCommissionValidity status methodType =
      "cannot " ++ methodType ++ ": " ++ "commission has yet to be accepted" := by
  rw [checkCommissionValidity_eq_renderGuard]
  simp [guardSpec, renderGuard, hCa, hAp, hR, hAcc, hm1, hm2]

lemma guard_valid_accept_reject (status : Status) (methodType : String)
    (hCa : status.Cancelled = false) (hAp : status.Approved = false)
    (hR : status.Rejected = false) (hAcc : status.Accepted = false)
    (hm : methodType = "accept commission" ∨ methodType = "reject commission") :
    checkCommissionValidity status methodType = "valid" := by
  rw [checkCommissionValidity_eq_renderGuard]
  rcases hm with hm | hm <;> subst hm <;> simp [guardSpec, renderGuard, hCa, hAp, hR, hAcc]

lemma guard_valid_cancel_submit (status : Status) (methodType : String)
    (hCa : status.Cancelled = false) (hAp : status.Approved = false)
    (hR : status.Rejected = false) (hAcc : status.Accepted = true)
    (hm : methodType = "cancel commission" ∨ methodType = "submit artwork") :
    checkCommissionValidity status methodType = "valid" := by
  rw [checkCommissionValidity_eq_renderGuard]
  rcases hm with hm | hm <;> subst hm <;> simp [guardSpec, renderGuard, hCa, hAp, hR, hAcc]

lemma guard_valid_approve_request (status : Status) (methodType : String)
    (hCa : status.Cancelled = false) (hAp : status.Approved = false)
    (hR : status.Rejected = false) (hAcc : status.Accepted = true)
    (hSub : status.ArtworkSubmitted = true)
    (hm : methodType = "approve commission" ∨ methodType = "request revision") :
    checkCommissionValidity status methodType = "valid" := by
  rw [checkCommissionValidity_eq_renderGuard]
  rcases hm with hm | hm <;> subst hm <;> simp [guardSpec, renderGuard, hCa, hAp, hR, hAcc, hSub]

/-- In a terminal status, the guard never reports "valid", whatever the
operation is. -/
lemma guard_terminal_not_valid (status : Status) (methodType : String)
    (h : status.Cancelled = true ∨ status.Approved = true ∨ status.Rejected = true) :
    checkCommissionValidity status methodType ≠ "valid" := by
  rcases h with h | h | h
  · rw [guard_denied_cancelled status methodType h]
    exact cannot_ne_valid methodType "commission has been cancelled"
  · rcases hCa : status.Cancelled with _ | _
    · rw [guard_denied_approved status methodType hCa h]
      exact cannot_ne_valid methodType "commission has ended"
    · rw [guard_denied_cancelled status methodType hCa]
      exact cannot_ne_valid methodType "commission has been cancelled"
  · rcases hCa : status.Cancelled with _ | _
    · rcases hAp : status.Approved with _ | _
      · rw [guard_denied_rejected status methodType hCa hAp h]
        exact cannot_ne_valid methodType "commission has been rejected"
      · rw [guard_denied_approved status methodType hCa hAp]
        exact cannot_ne_valid methodType "commission has ended"
    · rw [guard_denied_cancelled status methodType hCa]
      exact cannot_ne_valid methodType "commission has been cancelled"

lemma acceptCommission_denied (s : CanisterState) (cid : Nat) (c : Commission)
    (hget : mapGet s.commissions cid = some c)
    (hg : checkCommissionValidity c.status "accept commission" ≠ "valid") :
    acceptCommission s cid =
      (s, .error (.InvalidTransaction (checkCommissionValidity c.status "accept commission"))) := by
  simp only [acceptCommission, hget]
  rw [if_pos hg]

lemma acceptCommission_ok (s : CanisterState) (cid : Nat) (c : Commission)
    (hget : mapGet s.commissions cid = some c)
    (hg : checkCommissionValidity c.status "accept commission" = "valid") :
    acceptCommission s cid =
      ({ s with commissions := mapInsert s.commissions cid { c with status := { c.status with Accepted := true } } },
       .ok { c with status := { c.status with Accepted := true } }) := by
  simp only [acceptCommission, hget]
  rw [if_neg (not_not_intro hg)]

lemma rejectCommission_denied (s : CanisterState) (cid : Nat) (c : Commission)
    (hget : mapGet s.commissions cid = some c)
    (hg : checkCommissionValidity c.status "reject commission" ≠ "valid") :
    rejectCommission s cid =
      (s, .error (.InvalidTransaction (checkCommissionValidity c.status "reject commission"))) := by
  simp only [rejectCommission, hget]
  rw [if_pos hg]

lemma rejectCommission_ok (s : CanisterState) (cid : Nat) (c : Commission)
    (hget : mapGet s.commissions cid = some c)
    (hg : checkCommissionValidity c.status "reject commission" = "valid") :
    rejectCommission s cid =
      ({ s with commissions := mapInsert s.commissions cid { c with status := { c.status with Rejected := true } } },
       .ok { c with status := { c.status with Rejected := true } }) := by
  simp only [rejectCommission, hget]
  rw [if_neg (not_not_intro hg)]

lemma approveCommission_denied (s : CanisterState) (cid : Nat) (c : Commission)
    (hget : mapGet s.commissions cid = some c)
    (hg : checkCommissionValidity c.status "approve commission" ≠ "valid") :
    approveCommission s cid =
      (s, .error (.InvalidTransaction (checkCommissionValidity c.status "approve commission"))) := by
  simp only [approveCommission, hget]
  rw [if_pos hg]

lemma approveCommission_ok (s : CanisterState) (cid : Nat) (c : Commission)
    (hget : mapGet s.commissions cid = some c)
    (hg : checkCommissionValidity c.status "approve commission" = "valid") :
    approveCommission s cid =
      ({ s with commissions := mapInsert s.commissions cid { c with status := { c.status with Approved := true } } },
       .ok { c with status := { c.status with Approved := true } }) := by
  simp only [approveCommission, hget]
  rw [if_neg (not_not_intro hg)]

lemma cancelCommission_denied (s : CanisterState) (cid : Nat) (c : Commission)
    (hget : mapGet s.commissions cid = some c)
    (hg : checkCommissionValidity c.status "cancel commission" ≠ "valid") :
    cancelCommission s cid =
      (s, .error (.InvalidTransaction (checkCommissionValidity c.status "cancel commission"))) := by
  simp only [cancelCommission, hget]
  rw [if_pos hg]

lemma cancelCommission_ok (s : CanisterState) (cid : Nat) (c : Commission)
    (hget : mapGet s.commissions cid = some c)
    (hg : checkCommissionValidity c.status "cancel commission" = "valid") :
    cancelCommission s cid =
      ({ s with commissions := mapInsert s.commissions cid { c with status := { c.status with Cancelled := true } } },
       .ok { c with status := { c.status with Cancelled := true } }) := by
  simp only [cancelCommission, hget]
  rw [if_neg (not_not_intro hg)]

lemma submitArtwork_denied (s : CanisterState) (cid : Nat) (c : Commission) (url : String)
    (hget : mapGet s.commissions cid = some c)
    (hg : checkCommissionValidity c.status "submit artwork" ≠ "valid") :
    submitArtwork s cid url =
      (s, .error (.InvalidTransaction (checkCommissionValidity c.status "submit artwork"))) := by
  simp only [submitArtwork, hget]
  rw [if_pos hg]

lemma submitArtwork_ok (s : CanisterState) (cid : Nat) (c : Commission) (url : String)
    (hget : mapGet s.commissions cid = some c)
    (hg : checkCommissionValidity c.status "submit artwork" = "valid") :
    submitArtwork s cid url =
      ({ s with commissions := mapInsert s.commissions cid { c with artURL := url, status := { c.status with ArtworkSubmitted := true } } },
       .ok { c with artURL := url, status := { c.status with ArtworkSubmitted := true } }) := by
  simp only [submitArtwork, hget]
  rw [if_neg (not_not_intro hg)]

lemma requestRevision_denied (s : CanisterState) (cid : Nat) (c : Commission)
    (hget : mapGet s.commissions cid = some c)
    (hg : checkCommissionValidity c.status "request revision" ≠ "valid") :
    requestRevision s cid =
      (s, .error (.InvalidTransaction (checkCommissionValidity c.status "request revision"))) := by
  simp only [requestRevision, hget]
  rw [if_pos hg]

lemma requestRevision_exhausted_form (s : CanisterState) (cid : Nat) (c : Commission)
    (hget : mapGet s.commissions cid = some c)
    (hg : checkCommissionValidity c.status "request revision" = "valid")
    (hz : c.remaining_revision = 0) :
    requestRevision s cid = (s, .error (.NoRemainingRevision "no more revision can be made")) := by
  simp only [requestRevision, hget]
  rw [if_neg (not_not_intro hg), if_pos hz]

lemma requestRevision_ok_form (s : CanisterState) (cid : Nat) (c : Commission)
    (hget : mapGet s.commissions cid = some c)
    (hg : checkCommissionValidity c.status "request revision" = "valid")
    (hz : c.remaining_revision ≠ 0) :
    requestRevision s cid =
      ({ s with commissions := mapInsert s.commissions cid { c with remaining_revision := c.remaining_revision - 1, status := { c.status with ArtworkSubmitted := false } } },
       .ok { c with remaining_revision := c.remaining_revision - 1, status := { c.status with ArtworkSubmitted := false } }) := by
  simp only [requestRevision, hget]
  rw [if_neg (not_not_intro hg), if_neg hz]

/-- The public mutating operations of the canister. -/
inductive Op where
  | createArtist
  | createCustomer
  | createCommission
  | acceptCommission
  | rejectCommission
  | submitArtwork
  | requestRevision
  | approveCommission
  | cancelCommission
deriving DecidableEq

/-- One invocation of a public mutating operation.  The identity generator is
external and assumed collision-free (spec §4.2), so generated ids carry a
freshness hypothesis. -/
inductive Step : Op → CanisterState → CanisterState → Prop where
  | createArtistStep (s : CanisterState) (artistID : Nat) (artistName : String)
      (price : Nat) (number_of_revision : Int)
      (hfresh : mapGet s.artists artistID = none) :
      Step Op.createArtist s (createArtist s artistID artistName price number_of_revision).1
  | createCustomerStep (s : CanisterState) (customerID : Nat) (customerName : String)
      (hfresh : mapGet s.customers customerID = none) :
      Step Op.createCustomer s (createCustomer s customerID customerName).1
  | createCommissionStep (s : CanisterState) (commissionID artistID customerID : Nat)
      (hfresh : mapGet s.commissions commissionID = none) :
      Step Op.createCommission s (createCommission s commissionID artistID customerID).1
  | acceptCommissionStep (s : CanisterState) (commissionID : Nat) :
      Step Op.acceptCommission s (acceptCommission s commissionID).1
  | rejectCommissionStep (s : CanisterState) (commissionID : Nat) :
      Step Op.rejectCommission s (rejectCommission s commissionID).1
  | submitArtworkStep (s : CanisterState) (commissionID : Nat) (artURL : String) :
      Step Op.submitArtwork s (submitArtwork s commissionID artURL).1
  | requestRevisionStep (s : CanisterState) (commissionID : Nat) :
      Step Op.requestRevision s (requestRevision s commissionID).1
  | approveCommissionStep (s : CanisterState) (commissionID : Nat) :
      Step Op.approveCommission s (approveCommission s commissionID).1
  | cancelCommissionStep (s : CanisterState) (commissionID : Nat) :
      Step Op.cancelCommission s (cancelCommission s commissionID).1

/-- States reachable from the empty canister by public operations. -/
inductive Reachable : CanisterState → Prop where
  | init : Reachable initState
  | step {s s' : CanisterState} {op : Op} (h : Reachable s) (hs : Step op s s') : Reachable s'

/-- How one step affects a commission record: it is untouched, touched with
`remaining_revision` and `Pending` preserved, decremented by a successful
`requestRevision`, or freshly created from an existing artist. -/
lemma step_commission_tracking {op : Op} {s s' : CanisterState} (h : Step op s s')
    (cid : Nat) (c' : Commission) (hget' : mapGet s'.commissions cid = some c') :
    mapGet s.commissions cid = some c'
    ∨ (∃ c, mapGet s.commissions cid = some c ∧
        c'.remaining_revision = c.remaining_revision ∧ c'.status.Pending = c.status.Pending)
    ∨ (∃ c, mapGet s.commissions cid = some c ∧ op = Op.requestRevision ∧
        c.remaining_revision ≠ 0 ∧ c'.remaining_revision = c.remaining_revision - 1 ∧
        c'.status.Pending = c.status.Pending)
    ∨ (op = Op.createCommission ∧ mapGet s.commissions cid = none ∧
        c'.status.Pending = true ∧
        ∃ aid artist, mapGet s.artists aid = some artist ∧
          c'.remaining_revision = artist.number_of_revision) := by
  cases h with
  | createArtistStep s artistID artistName price number_of_revision hfresh =>
    left
    simpa only [createArtist] using hget'
  | createCustomerStep s customerID customerName hfresh =>
    left
    simpa only [createCustomer] using hget'
  | createCommissionStep s commissionID artistID customerID hfresh =>
    rcases hgetA : mapGet s.artists artistID with _ | artist
    · left
      simp only [createCommission, hgetA] at hget'
      exact hget'
    · rcases hgetC : mapGet s.customers customerID with _ | customer
      · left
        simp only [createCommission, hgetA, hgetC] at hget'
        exact hget'
      · simp only [createCommission, hgetA, hgetC] at hget'
        rcases mapGet_mapInsert_cases s.commissions commissionID cid _ c' hget' with ⟨hcid, hc⟩ | h2
        · subst hcid
          refine Or.inr (Or.inr (Or.inr ⟨rfl, hfresh, ?_, artistID, artist, hgetA, ?_⟩)) <;> rw [hc]
        · exact Or.inl h2
  | acceptCommissionStep s commissionID =>
    rcases hget0 : mapGet s.commissions commissionID with _ | c0
    · left
      simp only [acceptCommission, hget0] at hget'
      exact hget'
    · by_cases hv : checkCommissionValidity c0.status "accept commission" = "valid"
      · rw [acceptCommission_ok s commissionID c0 hget0 hv] at hget'
        rcases mapGet_mapInsert_cases s.commissions commissionID cid _ c' hget' with ⟨hcid, hc⟩ | h2
        · subst hcid
          exact Or.inr (Or.inl ⟨c0, hget0, by rw [hc], by rw [hc]⟩)
        · exact Or.inl h2
      · rw [acceptCommission_denied s commissionID c0 hget0 hv] at hget'
        exact Or.inl hget'
  | rejectCommissionStep s commissionID =>
    rcases hget0 : mapGet s.commissions commissionID with _ | c0
    · left
      simp only [rejectCommission, hget0] at hget'
      exact hget'
    · by_cases hv : checkCommissionValidity c0.status "reject commission" = "valid"
      · rw [rejectCommission_ok s commissionID c0 hget0 hv] at hget'
        rcases mapGet_mapInsert_cases s.commissions commissionID cid _ c' hget' with ⟨hcid, hc⟩ | h2
        · subst hcid
          exact Or.inr (Or.inl ⟨c0, hget0, by rw [hc], by rw [hc]⟩)
        · exact Or.inl h2
      · rw [rejectCommission_denied s commissionID c0 hget0 hv] at hget'
        exact Or.inl hget'
  | submitArtworkStep s commissionID artURL =>
    rcases hget0 : mapGet s.commissions commissionID with _ | c0
    · left
      simp only [submitArtwork, hget0] at hget'
      exact hget'
    · by_cases hv : checkCommissionValidity c0.status "submit artwork" = "valid"
      · rw [submitArtwork_ok s commissionID c0 artURL hget0 hv] at hget'
        rcases mapGet_mapInsert_cases s.commissions commissionID cid _ c' hget' with ⟨hcid, hc⟩ | h2
        · subst hcid
          exact Or.inr (Or.inl ⟨c0, hget0, by rw [hc], by rw [hc]⟩)
        · exact Or.inl h2
      · rw [submitArtwork_denied s commissionID c0 artURL hget0 hv] at hget'
        exact Or.inl hget'
  | requestRevisionStep s commissionID =>
    rcases hget0 : mapGet s.commissions commissionID with _ | c0
    · left
      simp only [requestRevision, hget0] at hget'
      exact hget'
    · by_cases hv : checkCommissionValidity c0.status "request revision" = "valid"
      · by_cases hz : c0.remaining_revision = 0
        · rw [requestRevision_exhausted_form s commissionID c0 hget0 hv hz] at hget'
          exact Or.inl hget'
        · rw [requestRevision_ok_form s commissionID c0 hget0 hv hz] at hget'
          rcases mapGet_mapInsert_cases s.commissions commissionID cid _ c' hget' with ⟨hcid, hc⟩ | h2
          · subst hcid
            exact Or.inr (Or.inr (Or.inl ⟨c0, hget0, rfl, hz, by rw [hc], by rw [hc]⟩))
          · exact Or.inl h2
      · rw [requestRevision_denied s commissionID c0 hget0 hv] at hget'
        exact Or.inl hget'
  | approveCommissionStep s commissionID =>
    rcases hget0 : mapGet s.commissions commissionID with _ | c0
    · left
      simp only [approveCommission, hget0] at hget'
      exact hget'
    · by_cases hv : checkCommissionValidity c0.status "approve commission" = "valid"
      · rw [approveCommission_ok s commissionID c0 hget0 hv] at hget'
        rcases mapGet_mapInsert_cases s.commissions commissionID cid _ c' hget' with ⟨hcid, hc⟩ | h2
        · subst hcid
          exact Or.inr (Or.inl ⟨c0, hget0, by rw [hc], by rw [hc]⟩)
        · exact Or.inl h2
      · rw [approveCommission_denied s commissionID c0 hget0 hv] at hget'
        exact Or.inl hget'
  | cancelCommissionStep s commissionID =>
    rcases hget0 : mapGet s.commissions commissionID with _ | c0
    · left
      simp only [cancelCommission, hget0] at hget'
      exact hget'
    · by_cases hv : checkCommissionValidity c0.status "cancel commission" = "valid"
      · rw [cancelCommission_ok s commissionID c0 hget0 hv] at hget'
        rcases mapGet_mapInsert_cases s.commissions commissionID cid _ c' hget' with ⟨hcid, hc⟩ | h2
        · subst hcid
          exact Or.inr (Or.inl ⟨c0, hget0, by rw [hc], by rw [hc]⟩)
        · exact Or.inl h2
      · rw [cancelCommission_denied s commissionID c0 hget0 hv] at hget'
        exact Or.inl hget'

lemma acceptCommission_artists (s : CanisterState) (cid : Nat) :
    (acceptCommission s cid).1.artists = s.artists := by
  rcases h : mapGet s.commissions cid with _ | c <;> simp only [acceptCommission, h]
  split_ifs <;> rfl

lemma rejectCommission_artists (s : CanisterState) (cid : Nat) :
    (rejectCommission s cid).1.artists = s.artists := by
  rcases h : mapGet s.commissions cid with _ | c <;> simp only [rejectCommission, h]
  split_ifs <;> rfl

lemma submitArtwork_artists (s : CanisterState) (cid : Nat) (url : String) :
    (submitArtwork s cid url).1.artists = s.artists := by
  rcases h : mapGet s.commissions cid with _ | c <;> simp only [submitArtwork, h]
  split_ifs <;> rfl

lemma requestRevision_artists (s : CanisterState) (cid : Nat) :
    (requestRevision s cid).1.artists = s.artists := by
  rcases h : mapGet s.commissions cid with _ | c <;> simp only [requestRevision, h]
  split_ifs <;> rfl

lemma approveCommission_artists (s : CanisterState) (cid : Nat) :
    (approveCommission s cid).1.artists = s.artists := by
  rcases h : mapGet s.commissions cid with _ | c <;> simp only [approveCommission, h]
  split_ifs <;> rfl

lemma cancelCommission_artists (s : CanisterState) (cid : Nat) :
    (cancelCommission s cid).1.artists = s.artists := by
  rcases h : mapGet s.commissions cid with _ | c <;> simp only [cancelCommission, h]
  split_ifs <;> rfl

lemma createCommission_artists (s : CanisterState) (cid aid custid : Nat) :
    (createCommission s cid aid custid).1.artists = s.artists := by
  rcases h1 : mapGet s.artists aid with _ | artist <;> simp only [createCommission, h1]
  rcases h2 : mapGet s.customers custid with _ | customer <;> simp only [h2]

/-- `Step` restricted to runs in which every `createArtist` call passes a
non-negative revision budget. -/
inductive StepNN : Op → CanisterState → CanisterState → Prop where
  | createArtistStep (s : CanisterState) (artistID : Nat) (artistName : String)
      (price : Nat) (number_of_revision : Int)
      (hfresh : mapGet s.artists artistID = none)
      (hb : 0 ≤ number_of_revision) :
      StepNN Op.createArtist s (createArtist s artistID artistName price number_of_revision).1
  | createCustomerStep (s : CanisterState) (customerID : Nat) (customerName : String)
      (hfresh : mapGet s.customers customerID = none) :
      StepNN Op.createCustomer s (createCustomer s customerID customerName).1
  | createCommissionStep (s : CanisterState) (commissionID artistID customerID : Nat)
      (hfresh : mapGet s.commissions commissionID = none) :
      StepNN Op.createCommission s (createCommission s commissionID artistID customerID).1
  | acceptCommissionStep (s : CanisterState) (commissionID : Nat) :
      StepNN Op.acceptCommission s (acceptCommission s commissionID).1
  | rejectCommissionStep (s : CanisterState) (commissionID : Nat) :
      StepNN Op.rejectCommission s (rejectCommission s commissionID).1
  | submitArtworkStep (s : CanisterState) (commissionID : Nat) (artURL : String) :
      StepNN Op.submitArtwork s (submitArtwork s commissionID artURL).1
  | requestRevisionStep (s : CanisterState) (commissionID : Nat) :
      StepNN Op.requestRevision s (requestRevision s commissionID).1
  | approveCommissionStep (s : CanisterState) (commissionID : Nat) :
      StepNN Op.approveCommission s (approveCommission s commissionID).1
  | cancelCommissionStep (s : CanisterState) (commissionID : Nat) :
      StepNN Op.cancelCommission s (cancelCommission s commissionID).1

/-- States reachable when every artist was registered with a non-negative
revision budget. -/
inductive ReachableNN : CanisterState → Prop where
  | init : ReachableNN initState
  | step {s s' : CanisterState} {op : Op} (h : ReachableNN s) (hs : StepNN op s s') : ReachableNN s'

lemma stepNN_toStep {op : Op} {s s' : CanisterState} (h : StepNN op s s') : Step op s s' := by
  cases h with
  | createArtistStep s artistID artistName price number_of_revision hfresh hb =>
    exact Step.createArtistStep s artistID artistName price number_of_revision hfresh
  | createCustomerStep s customerID customerName hfresh =>
    exact Step.createCustomerStep s customerID customerName hfresh
  | createCommissionStep s commissionID artistID customerID hfresh =>
    exact Step.createCommissionStep s commissionID artistID customerID hfresh
  | acceptCommissionStep s commissionID => exact Step.acceptCommissionStep s commissionID
  | rejectCommissionStep s commissionID => exact Step.rejectCommissionStep s commissionID
  | submitArtworkStep s commissionID artURL => exact Step.submitArtworkStep s commissionID artURL
  | requestRevisionStep s commissionID => exact Step.requestRevisionStep s commissionID
  | approveCommissionStep s commissionID => exact Step.approveCommissionStep s commissionID
  | cancelCommissionStep s commissionID => exact Step.cancelCommissionStep s commissionID

lemma stepNN_artists_budget {op : Op} {s s' : CanisterState} (h : StepNN op s s')
    (IH : ∀ aid a, mapGet s.artists aid = some a → 0 ≤ a.number_of_revision) :
    ∀ aid a, mapGet s'.artists aid = some a → 0 ≤ a.number_of_revision := by
  cases h with
  | createArtistStep s artistID artistName price number_of_revision hfresh hb =>
    intro aid a hget
    simp only [createArtist] at hget
    rcases mapGet_mapInsert_cases s.artists artistID aid _ a hget with ⟨hcid, hc⟩ | h2
    · rw [hc]
      exact hb
    · exact IH aid a h2
  | createCustomerStep s customerID customerName hfresh =>
    intro aid a hget
    exact IH aid a (by simpa only [createCustomer] using hget)
  | createCommissionStep s commissionID artistID customerID hfresh =>
    intro aid a hget
    rw [createCommission_artists] at hget
    exact IH aid a hget
  | acceptCommissionStep s commissionID =>
    intro aid a hget
    rw [acceptCommission_artists] at hget
    exact IH aid a hget
  | rejectCommissionStep s commissionID =>
    intro aid a hget
    rw [rejectCommission_artists] at hget
    exact IH aid a hget
  | submitArtworkStep s commissionID artURL =>
    intro aid a hget
    rw [submitArtwork_artists] at hget
    exact IH aid a hget
  | requestRevisionStep s commissionID =>
    intro aid a hget
    rw [requestRevision_artists] at hget
    exact IH aid a hget
  | approveCommissionStep s commissionID =>
    intro aid a hget
    rw [approveCommission_artists] at hget
    exact IH aid a hget
  | cancelCommissionStep s commissionID =>
    intro aid a hget
    rw [cancelCommission_artists] at hget
    exact IH aid a hget

lemma reachableNN_invariant (s : CanisterState) (h : ReachableNN s) :
    (∀ aid a, mapGet s.artists aid = some a → 0 ≤ a.number_of_revision) ∧
    (∀ cid c, mapGet s.commissions cid = some c → 0 ≤ c.remaining_revision) := by
  induction h with
  | init =>
    constructor <;> intro k v hget <;> simp [initState, mapGet] at hget
  | step h hs ih =>
    refine ⟨stepNN_artists_budget hs ih.1, ?_⟩
    intro cid c' hget'
    rcases step_commission_tracking (stepNN_toStep hs) cid c' hget' with
      h1 | ⟨c, hc, hrem, _⟩ | ⟨c, hc, _, hz, hrem, _⟩ | ⟨_, _, _, aid, artist, ha, hrem⟩
    · exact ih.2 cid c' h1
    · rw [hrem]
      exact ih.2 cid c hc
    · have := ih.2 cid c hc
      omega
    · rw [hrem]
      exact ih.1 aid artist ha

/-! Concrete states used by witnesses and counterexamples: the spec's test
scenario (artist with revision budget 1) and a negative-budget variant. -/

def S1 : CanisterState := (createArtist initState 1 "alice" 100 1).1

def S2 : CanisterState := (createCustomer S1 2 "bob").1

def S3 : CanisterState := (createCommission S2 3 1 2).1

def S4 : CanisterState := (acceptCommission S3 3).1

def S5 : CanisterState := (submitArtwork S4 3 "u1").1

def S6 : CanisterState := (requestRevision S5 3).1

def S7 : CanisterState := (submitArtwork S6 3 "u2").1

def S8 : CanisterState := (approveCommission S5 3).1

def S3c : Commission := ⟨3, 2, 1, 100, 1, "", ⟨true, false, false, false, false, false⟩⟩

def S4c : Commission := ⟨3, 2, 1, 100, 1, "", ⟨true, true, false, false, false, false⟩⟩

def S5c : Commission := ⟨3, 2, 1, 100, 1, "u1", ⟨true, true, false, true, false, false⟩⟩

def S7c : Commission := ⟨3, 2, 1, 100, 0, "u2", ⟨true, true, false, true, false, false⟩⟩

def S8c : Commission := ⟨3, 2, 1, 100, 1, "u1", ⟨true, true, false, true, true, false⟩⟩

def N1 : CanisterState := (createArtist initState 1 "carol" 10 (-1)).1

def N2 : CanisterState := (createCustomer N1 2 "dave").1

def N3 : CanisterState := (createCommission N2 3 1 2).1

/-- Claim C1, counterexample: on a freshly created commission (reached via
`createArtist`, `createCustomer`, `createCommission`) the status is
non-terminal and Pending with `Accepted = false`, yet `cancelCommission`
returns `InvalidTransaction` ("commission has yet to be accepted") instead of
the `Ok` the claim requires. -/
theorem cancel_pending_denied :
    mapGet S3.commissions 3 = some S3c ∧
    S3c.status.Cancelled = false ∧ S3c.status.Approved = false ∧ S3c.status.Rejected = false ∧
    S3c.status.Accepted = false ∧
    cancelCommission S3 3 =
      (S3, Except.error (Error.InvalidTransaction "cannot cancel commission: commission has yet to be accepted")) := by
  decide

/-- Claim C1 (amended): `cancelCommission` returns `Ok` with `Cancelled` set
for a non-terminal commission only when `Accepted` is true; on a non-terminal
commission with `Accepted = false` (in particular a freshly created Pending
one) it returns `InvalidTransaction` with reason "commission has yet to be
accepted", and from any terminal state it returns `InvalidTransaction`. -/
theorem cancelCommission_spec (s : CanisterState) (cid : Nat) (c : Commission)
    (hget : mapGet s.commissions cid = some c) :
    (c.status.Cancelled = false → c.status.Approved = false → c.status.Rejected = false →
      c.status.Accepted = true →
      cancelCommission s cid =
        ({ s with commissions := mapInsert s.commissions cid { c with status := { c.status with Cancelled := true } } },
         Except.ok { c with status := { c.status with Cancelled := true } }))
    ∧ (c.status.Cancelled = false → c.status.Approved = false → c.status.Rejected = false →
      c.status.Accepted = false →
      cancelCommission s cid =
        (s, Except.error (Error.InvalidTransaction "cannot cancel commission: commission has yet to be accepted")))
    ∧ ((c.status.Cancelled = true ∨ c.status.Approved = true ∨ c.status.Rejected = true) →
      ∃ reason, cancelCommission s cid = (s, Except.error (Error.InvalidTransaction reason))) := by
  refine ⟨?_, ?_, ?_⟩
  · intro hCa hAp hR hAcc
    exact cancelCommission_ok s cid c hget
      (guard_valid_cancel_submit c.status "cancel commission" hCa hAp hR hAcc (Or.inl rfl))
  · intro hCa hAp hR hAcc
    have hg := guard_denied_not_accepted c.status "cancel commission" hCa hAp hR hAcc
      (by decide) (by decide)
    rw [cancelCommission_denied s cid c hget (by rw [hg]; exact cannot_ne_valid _ _), hg]
    rfl
  · intro hterm
    exact ⟨_, cancelCommission_denied s cid c hget
      (guard_terminal_not_valid c.status "cancel commission" hterm)⟩

/-- Claim C1 witness: on the accepted commission of the scenario, cancel
succeeds and sets `Cancelled`. -/
theorem cancelCommission_spec_witness :
    cancelCommission S4 3 =
      ({ S4 with commissions := mapInsert S4.commissions 3 { S4c with status := { S4c.status with Cancelled := true } } },
       Except.ok { S4c with status := { S4c.status with Cancelled := true } }) :=
  (cancelCommission_spec S4 3 S4c (by decide)).1 (by decide) (by decide) (by decide) (by decide)

/-- Claim C2: the source guard `checkCommissionValidity` computes exactly the
spec's precedence-ordered first-match-wins chain (`guardSpec`), rendered as
"valid" or "cannot \x7boperation\x7d: \x7breason\x7d", and every mutating
operation surfaces a denial as an `InvalidTransaction` with that message. -/
theorem guard_precedence_chain :
    (∀ (status : Status) (operation : String),
      checkCommissionValidity status operation = renderGuard (guardSpec status operation) operation)
    ∧ (∀ (s : CanisterState) (cid : Nat) (c : Commission) (reason : String),
      mapGet s.commissions cid = some c →
      guardSpec c.status "accept commission" = GuardResult.Denied reason →
      (acceptCommission s cid).2 = Except.error (Error.InvalidTransaction ("cannot " ++ "accept commission" ++ ": " ++ reason)))
    ∧ (∀ (s : CanisterState) (cid : Nat) (c : Commission) (reason : String),
      mapGet s.commissions cid = some c →
      guardSpec c.status "reject commission" = GuardResult.Denied reason →
      (rejectCommission s cid).2 = Except.error (Error.InvalidTransaction ("cannot " ++ "reject commission" ++ ": " ++ reason)))
    ∧ (∀ (s : CanisterState) (cid : Nat) (c : Commission) (url reason : String),
      mapGet s.commissions cid = some c →
      guardSpec c.status "submit artwork" = GuardResult.Denied reason →
      (submitArtwork s cid url).2 = Except.error (Error.InvalidTransaction ("cannot " ++ "submit artwork" ++ ": " ++ reason)))
    ∧ (∀ (s : CanisterState) (cid : Nat) (c : Commission) (reason : String),
      mapGet s.commissions cid = some c →
      guardSpec c.status "request revision" = GuardResult.Denied reason →
      (requestRevision s cid).2 = Except.error (Error.InvalidTransaction ("cannot " ++ "request revision" ++ ": " ++ reason)))
    ∧ (∀ (s : CanisterState) (cid : Nat) (c : Commission) (reason : String),
      mapGet s.commissions cid = some c →
      guardSpec c.status "approve commission" = GuardResult.Denied reason →
      (approveCommission s cid).2 = Except.error (Error.InvalidTransaction ("cannot " ++ "approve commission" ++ ": " ++ reason)))
    ∧ (∀ (s : CanisterState) (cid : Nat) (c : Commission) (reason : String),
      mapGet s.commissions cid = some c →
      guardSpec c.status "cancel commission" = GuardResult.Denied reason →
      (cancelCommission s cid).2 = Except.error (Error.InvalidTransaction ("cannot " ++ "cancel commission" ++ ": " ++ reason))) := by
  refine ⟨checkCommissionValidity_eq_renderGuard, ?_, ?_, ?_, ?_, ?_, ?_⟩
  · intro s cid c reason hget hd
    have hg : checkCommissionValidity c.status "accept commission" = "cannot " ++ "accept commission" ++ ": " ++ reason := by
      rw [checkCommissionValidity_eq_renderGuard, hd]
      rfl
    rw [acceptCommission_denied s cid c hget (by rw [hg]; exact cannot_ne_valid _ _), hg]
  · intro s cid c reason hget hd
    have hg : checkCommissionValidity c.status "reject commission" = "cannot " ++ "reject commission" ++ ": " ++ reason := by
      rw [checkCommissionValidity_eq_renderGuard, hd]
      rfl
    rw [rejectCommission_denied s cid c hget (by rw [hg]; exact cannot_ne_valid _ _), hg]
  · intro s cid c url reason hget hd
    have hg : checkCommissionValidity c.status "submit artwork" = "cannot " ++ "submit artwork" ++ ": " ++ reason := by
      rw [checkCommissionValidity_eq_renderGuard, hd]
      rfl
    rw [submitArtwork_denied s cid c url hget (by rw [hg]; exact cannot_ne_valid _ _), hg]
  · intro s cid c reason hget hd
    have hg : checkCommissionValidity c.status "request revision" = "cannot " ++ "request revision" ++ ": " ++ reason := by
      rw [checkCommissionValidity_eq_renderGuard, hd]
      rfl
    rw [requestRevision_denied s cid c hget (by rw [hg]; exact cannot_ne_valid _ _), hg]
  · intro s cid c reason hget hd
    have hg : checkCommissionValidity c.status "approve commission" = "cannot " ++ "approve commission" ++ ": " ++ reason := by
      rw [checkCommissionValidity_eq_renderGuard, hd]
      rfl
    rw [approveCommission_denied s cid c hget (by rw [hg]; exact cannot_ne_valid _ _), hg]
  · intro s cid c reason hget hd
    have hg : checkCommissionValidity c.status "cancel commission" = "cannot " ++ "cancel commission" ++ ": " ++ reason := by
      rw [checkCommissionValidity_eq_renderGuard, hd]
      rfl
    rw [cancelCommission_denied s cid c hget (by rw [hg]; exact cannot_ne_valid _ _), hg]

/-- Claim C2 witness: on a cancelled commission, `acceptCommission` surfaces
the rule-1 denial as an `InvalidTransaction`. -/
theorem guard_precedence_chain_witness :
    (acceptCommission ⟨[], [], [(9, ⟨9, 2, 1, 5, 0, "", ⟨true, true, false, false, false, true⟩⟩)]⟩ 9).2 =
      Except.error (Error.InvalidTransaction ("cannot " ++ "accept commission" ++ ": " ++ "commission has been cancelled")) :=
  guard_precedence_chain.2.1 ⟨[], [], [(9, ⟨9, 2, 1, 5, 0, "", ⟨true, true, false, false, false, true⟩⟩)]⟩
    9 ⟨9, 2, 1, 5, 0, "", ⟨true, true, false, false, false, true⟩⟩ "commission has been cancelled"
    (by decide) (by decide)

/-- Claim C3: once a commission is approved (and neither cancelled nor
rejected), every mutating operation returns `InvalidTransaction` with reason
"commission has ended" and leaves the state untouched; and more generally no
operation mutates the state through a commission in any terminal state. -/
theorem terminal_frozen :
    (∀ (s : CanisterState) (cid : Nat) (c : Commission),
      mapGet s.commissions cid = some c →
      c.status.Approved = true → c.status.Cancelled = false → c.status.Rejected = false →
      acceptCommission s cid = (s, Except.error (Error.InvalidTransaction ("cannot " ++ "accept commission" ++ ": " ++ "commission has ended")))
      ∧ rejectCommission s cid = (s, Except.error (Error.InvalidTransaction ("cannot " ++ "reject commission" ++ ": " ++ "commission has ended")))
      ∧ (∀ url, submitArtwork s cid url = (s, Except.error (Error.InvalidTransaction ("cannot " ++ "submit artwork" ++ ": " ++ "commission has ended"))))
      ∧ requestRevision s cid = (s, Except.error (Error.InvalidTransaction ("cannot " ++ "request revision" ++ ": " ++ "commission has ended")))
      ∧ approveCommission s cid = (s, Except.error (Error.InvalidTransaction ("cannot " ++ "approve commission" ++ ": " ++ "commission has ended")))
      ∧ cancelCommission s cid = (s, Except.error (Error.InvalidTransaction ("cannot " ++ "cancel commission" ++ ": " ++ "commission has ended"))))
    ∧ (∀ (s : CanisterState) (cid : Nat) (c : Commission),
      mapGet s.commissions cid = some c →
      (c.status.Cancelled = true ∨ c.status.Approved = true ∨ c.status.Rejected = true) →
      (acceptCommission s cid).1 = s ∧ (rejectCommission s cid).1 = s ∧
      (∀ url, (submitArtwork s cid url).1 = s) ∧ (requestRevision s cid).1 = s ∧
      (approveCommission s cid).1 = s ∧ (cancelCommission s cid).1 = s) := by
  constructor
  · intro s cid c hget hAp hCa hR
    have hg : ∀ methodType, checkCommissionValidity c.status methodType =
        "cannot " ++ methodType ++ ": " ++ "commission has ended" :=
      fun methodType => guard_denied_approved c.status methodType hCa hAp
    have hne : ∀ methodType, checkCommissionValidity c.status methodType ≠ "valid" :=
      fun methodType => by rw [hg methodType]; exact cannot_ne_valid _ _
    refine ⟨?_, ?_, fun url => ?_, ?_, ?_, ?_⟩
    · rw [acceptCommission_denied s cid c hget (hne _), hg]
    · rw [rejectCommission_denied s cid c hget (hne _), hg]
    · rw [submitArtwork_denied s cid c url hget (hne _), hg]
    · rw [requestRevision_denied s cid c hget (hne _), hg]
    · rw [approveCommission_denied s cid c hget (hne _), hg]
    · rw [cancelCommission_denied s cid c hget (hne _), hg]
  · intro s cid c hget hterm
    have hne : ∀ methodType, checkCommissionValidity c.status methodType ≠ "valid" :=
      fun methodType => guard_terminal_not_valid c.status methodType hterm
    refine ⟨?_, ?_, fun url => ?_, ?_, ?_, ?_⟩
    · rw [acceptCommission_denied s cid c hget (hne _)]
    · rw [rejectCommission_denied s cid c hget (hne _)]
    · rw [submitArtwork_denied s cid c url hget (hne _)]
    · rw [requestRevision_denied s cid c hget (hne _)]
    · rw [approveCommission_denied s cid c hget (hne _)]
    · rw [cancelCommission_denied s cid c hget (hne _)]

/-- Claim C3 witness: after the scenario's approval, `acceptCommission` is
rejected with "commission has ended" and the state is untouched. -/
theorem terminal_frozen_witness :
    acceptCommission S8 3 = (S8, Except.error (Error.InvalidTransaction ("cannot " ++ "accept commission" ++ ": " ++ "commission has ended"))) ∧
    (cancelCommission S8 3).1 = S8 :=
  ⟨((terminal_frozen.1 S8 3 S8c (by decide) (by decide) (by decide) (by decide)).1),
   ((terminal_frozen.2 S8 3 S8c (by decide) (by decide)).2.2.2.2.2)⟩

/-- Claim C4, counterexample: `createArtist` accepts a negative revision
budget (it performs no validation), and the commission created from that
artist starts with `remaining_revision = -1 < 0`, refuting "never negative for
every artist revisionBudget value accepted by createArtist". -/
theorem negative_budget_commission :
    mapGet N1.artists 1 = some ⟨1, "carol", 10, -1⟩ ∧
    (createCommission N2 3 1 2).2 = Except.ok ⟨3, 2, 1, 10, -1, "", ⟨true, false, false, false, false, false⟩⟩ ∧
    mapGet N3.commissions 3 = some ⟨3, 2, 1, 10, -1, "", ⟨true, false, false, false, false, false⟩⟩ ∧
    ((-1 : Int) < 0) := by
  decide

/-- Claim C4 (amended): across every operation step, a stored commission's
`remaining_revision` never increases — it is unchanged except that a
successful `requestRevision` decrements it by exactly one — and along runs in
which every `createArtist` call was given a non-negative revision budget,
`remaining_revision` is never negative.  (Unrestricted runs can violate
non-negativity, because `createArtist` also accepts negative budgets.) -/
theorem remaining_revision_monotone :
    (∀ (op : Op) (s s' : CanisterState), Step op s s' → ∀ (cid : Nat) (c c' : Commission),
      mapGet s.commissions cid = some c → mapGet s'.commissions cid = some c' →
      c'.remaining_revision ≤ c.remaining_revision ∧
      (c'.remaining_revision = c.remaining_revision ∨
        (op = Op.requestRevision ∧ c'.remaining_revision = c.remaining_revision - 1)))
    ∧ (∀ s : CanisterState, ReachableNN s → ∀ (cid : Nat) (c : Commission),
      mapGet s.commissions cid = some c → 0 ≤ c.remaining_revision) := by
  constructor
  · intro op s s' hstep cid c c' hget hget'
    rcases step_commission_tracking hstep cid c' hget' with
      h1 | ⟨c0, hc0, hrem, _⟩ | ⟨c0, hc0, hop, hz, hrem, _⟩ | ⟨_, hnone, _, _⟩
    · rw [hget] at h1
      cases h1
      exact ⟨le_refl _, Or.inl rfl⟩
    · rw [hget] at hc0
      cases hc0
      exact ⟨le_of_eq hrem, Or.inl hrem⟩
    · rw [hget] at hc0
      cases hc0
      exact ⟨by omega, Or.inr ⟨hop, hrem⟩⟩
    · rw [hget] at hnone
      cases hnone
  · exact fun s h => (reachableNN_invariant s h).2

/-- Claim C4 witness: along the non-negative-budget scenario run, the stored
commission's remaining revision budget is non-negative. -/
theorem remaining_revision_monotone_witness :
    0 ≤ S3c.remaining_revision :=
  remaining_revision_monotone.2 S3
    (ReachableNN.step
      (ReachableNN.step
        (ReachableNN.step ReachableNN.init
          (StepNN.createArtistStep initState 1 "alice" 100 1 (by decide) (by decide)))
        (StepNN.createCustomerStep S1 2 "bob" (by decide)))
      (StepNN.createCommissionStep S2 3 1 2 (by decide)))
    3 S3c (by decide)

/-- Claim C5, counterexample: `createArtist` called with an empty name (and
likewise `createCustomer`) does not fail — it inserts the record, growing the
store by one, so the call neither returns an error nor leaves the store
unmutated.  (The source's `Error` variant has no `InvalidInput` kind at all.) -/
theorem createArtist_empty_name_inserts :
    (createArtist initState 1 "" 5 2).1.artists.length = initState.artists.length + 1 ∧
    (createArtist initState 1 "" 5 2).2.artistName = "" ∧
    mapGet (createArtist initState 1 "" 5 2).1.artists 1 = some ⟨1, "", 5, 2⟩ ∧
    (createCustomer initState 4 "").1.customers.length = initState.customers.length + 1 ∧
    mapGet (createCustomer initState 4 "").1.customers 4 = some ⟨4, ""⟩ := by
  decide

/-- Claim C5 (amended): `createArtist` and `createCustomer` perform no name
validation whatsoever: called with an empty name they still insert the new
record and return it, and the corresponding store grows by one entry. -/
theorem create_no_validation :
    (∀ (s : CanisterState) (aid : Nat) (price : Nat) (budget : Int),
      mapGet s.artists aid = none →
      (createArtist s aid "" price budget).1.artists.length = s.artists.length + 1 ∧
      mapGet (createArtist s aid "" price budget).1.artists aid = some ⟨aid, "", price, budget⟩ ∧
      (createArtist s aid "" price budget).2 = ⟨aid, "", price, budget⟩)
    ∧ (∀ (s : CanisterState) (cuid : Nat),
      mapGet s.customers cuid = none →
      (createCustomer s cuid "").1.customers.length = s.customers.length + 1 ∧
      mapGet (createCustomer s cuid "").1.customers cuid = some ⟨cuid, ""⟩ ∧
      (createCustomer s cuid "").2 = ⟨cuid, ""⟩) := by
  constructor
  · intro s aid price budget hfresh
    refine ⟨?_, ?_, rfl⟩
    · exact length_mapInsert_of_fresh s.artists aid _ hfresh
    · exact mapGet_mapInsert_self s.artists aid _
  · intro s cuid hfresh
    refine ⟨?_, ?_, rfl⟩
    · exact length_mapInsert_of_fresh s.customers cuid _ hfresh
    · exact mapGet_mapInsert_self s.customers cuid _

/-- Claim C5 witness: concrete empty-name creations on the empty state. -/
theorem create_no_validation_witness :
    (createArtist initState 7 "" 5 2).1.artists.length = initState.artists.length + 1 ∧
    (createCustomer initState 7 "").1.customers.length = initState.customers.length + 1 :=
  ⟨(create_no_validation.1 initState 7 5 2 (by decide)).1,
   (create_no_validation.2 initState 7 (by decide)).1⟩

/-- Claim C6, counterexample: on an accepted, non-terminal commission,
`submitArtwork` with the empty url succeeds (no `InvalidInput`), stores the
empty `artURL`, sets `ArtworkSubmitted`, and mutates the state. -/
theorem submitArtwork_empty_url_ok :
    (submitArtwork S4 3 "").2 = Except.ok ⟨3, 2, 1, 100, 1, "", ⟨true, true, false, true, false, false⟩⟩ ∧
    mapGet (submitArtwork S4 3 "").1.commissions 3 = some ⟨3, 2, 1, 100, 1, "", ⟨true, true, false, true, false, false⟩⟩ ∧
    (submitArtwork S4 3 "").1 ≠ S4 := by
  decide

/-- Claim C6 (amended): `submitArtwork` performs no url validation: whenever
the guard permits (commission accepted and non-terminal), it stores the given
url — the empty string included — sets `ArtworkSubmitted`, and returns the
updated commission. -/
theorem submitArtwork_no_url_validation (s : CanisterState) (cid : Nat) (c : Commission)
    (url : String) (hget : mapGet s.commissions cid = some c)
    (hCa : c.status.Cancelled = false) (hAp : c.status.Approved = false)
    (hR : c.status.Rejected = false) (hAcc : c.status.Accepted = true) :
    submitArtwork s cid url =
      ({ s with commissions := mapInsert s.commissions cid { c with artURL := url, status := { c.status with ArtworkSubmitted := true } } },
       Except.ok { c with artURL := url, status := { c.status with ArtworkSubmitted := true } }) :=
  submitArtwork_ok s cid c url hget
    (guard_valid_cancel_submit c.status "submit artwork" hCa hAp hR hAcc (Or.inr rfl))

/-- Claim C6 witness: submitting the empty url on the scenario's accepted
commission succeeds and stores it. -/
theorem submitArtwork_no_url_validation_witness :
    submitArtwork S4 3 "" =
      ({ S4 with commissions := mapInsert S4.commissions 3 { S4c with artURL := "", status := { S4c.status with ArtworkSubmitted := true } } },
       Except.ok { S4c with artURL := "", status := { S4c.status with ArtworkSubmitted := true } }) :=
  submitArtwork_no_url_validation S4 3 S4c "" (by decide) (by decide) (by decide) (by decide) (by decide)

/-- Claim C7: on an accepted, artwork-submitted, non-terminal commission with
a positive revision budget, `requestRevision` succeeds, decrements
`remaining_revision` by exactly one, clears `ArtworkSubmitted`, and the
status stays non-terminal with `Accepted` still true. -/
theorem requestRevision_success (s : CanisterState) (cid : Nat) (c : Commission)
    (hget : mapGet s.commissions cid = some c)
    (hCa : c.status.Cancelled = false) (hAp : c.status.Approved = false)
    (hR : c.status.Rejected = false) (hAcc : c.status.Accepted = true)
    (hSub : c.status.ArtworkSubmitted = true) (hpos : 0 < c.remaining_revision) :
    requestRevision s cid =
      ({ s with commissions := mapInsert s.commissions cid { c with remaining_revision := c.remaining_revision - 1, status := { c.status with ArtworkSubmitted := false } } },
       Except.ok { c with remaining_revision := c.remaining_revision - 1, status := { c.status with ArtworkSubmitted := false } })
    ∧ ({ c.status with ArtworkSubmitted := false } : Status).Accepted = true
    ∧ ({ c.status with ArtworkSubmitted := false } : Status).Approved = false
    ∧ ({ c.status with ArtworkSubmitted := false } : Status).Rejected = false
    ∧ ({ c.status with ArtworkSubmitted := false } : Status).Cancelled = false := by
  refine ⟨?_, hAcc, hAp, hR, hCa⟩
  exact requestRevision_ok_form s cid c hget
    (guard_valid_approve_request c.status "request revision" hCa hAp hR hAcc hSub (Or.inr rfl))
    (by omega)

/-- Claim C7 witness: the spec's scenario (budget 1, accept, submit,
request revision) ends with `remaining_revision = 0` and artwork cleared. -/
theorem requestRevision_success_witness :
    requestRevision S5 3 =
      ({ S5 with commissions := mapInsert S5.commissions 3 { S5c with remaining_revision := S5c.remaining_revision - 1, status := { S5c.status with ArtworkSubmitted := false } } },
       Except.ok { S5c with remaining_revision := S5c.remaining_revision - 1, status := { S5c.status with ArtworkSubmitted := false } })
    ∧ S5c.remaining_revision - 1 = 0 :=
  ⟨(requestRevision_success S5 3 S5c (by decide) (by decide) (by decide) (by decide) (by decide) (by decide) (by decide)).1,
   by decide⟩

/-- Claim C8: when the guard permits but the revision budget is exhausted,
`requestRevision` returns the distinct `NoRemainingRevision` error with
message "no more revision can be made" and the state — hence the stored
commission, its zero budget and its set `ArtworkSubmitted` flag — is
completely unchanged. -/
theorem requestRevision_no_budget (s : CanisterState) (cid : Nat) (c : Commission)
    (hget : mapGet s.commissions cid = some c)
    (hCa : c.status.Cancelled = false) (hAp : c.status.Approved = false)
    (hR : c.status.Rejected = false) (hAcc : c.status.Accepted = true)
    (hSub : c.status.ArtworkSubmitted = true) (hz : c.remaining_revision = 0) :
    requestRevision s cid = (s, Except.error (Error.NoRemainingRevision "no more revision can be made")) :=
  requestRevision_exhausted_form s cid c hget
    (guard_valid_approve_request c.status "request revision" hCa hAp hR hAcc hSub (Or.inr rfl))
    hz

/-- Claim C8 witness: continuing the scenario (resubmit after the budget hit
zero), the second `requestRevision` yields `NoRemainingRevision` and leaves
the state — budget still 0, artwork still submitted — unchanged. -/
theorem requestRevision_no_budget_witness :
    mapGet S7.commissions 3 = some S7c ∧
    S7c.remaining_revision = 0 ∧ S7c.status.ArtworkSubmitted = true ∧
    requestRevision S7 3 = (S7, Except.error (Error.NoRemainingRevision "no more revision can be made")) :=
  ⟨by decide, by decide, by decide,
   requestRevision_no_budget S7 3 S7c (by decide) (by decide) (by decide) (by decide) (by decide) (by decide) (by decide)⟩

/-- Claim C9: with both referenced entities present, `createCommission`
returns `Ok` with a Pending-only status, `remaining_revision` snapshotting the
artist's `number_of_revision`, an empty `artURL`, and the artist's current
price; with either entity absent it returns `NotFound` and leaves the state —
in particular the commissions map — unchanged. -/
theorem createCommission_spec :
    (∀ (s : CanisterState) (cid aid custid : Nat) (artist : Artist) (customer : Customer),
      mapGet s.artists aid = some artist → mapGet s.customers custid = some customer →
      createCommission s cid aid custid =
        ({ s with commissions := mapInsert s.commissions cid ⟨cid, custid, artist.artistID, artist.price, artist.number_of_revision, "", ⟨true, false, false, false, false, false⟩⟩ },
         Except.ok ⟨cid, custid, artist.artistID, artist.price, artist.number_of_revision, "", ⟨true, false, false, false, false, false⟩⟩))
    ∧ (∀ (s : CanisterState) (cid aid custid : Nat),
      mapGet s.artists aid = none →
      createCommission s cid aid custid =
        (s, Except.error (Error.NotFound ("cannot create the commission: artist=" ++ toString aid ++ " not found"))))
    ∧ (∀ (s : CanisterState) (cid aid custid : Nat) (artist : Artist),
      mapGet s.artists aid = some artist → mapGet s.customers custid = none →
      createCommission s cid aid custid =
        (s, Except.error (Error.NotFound ("cannot create the commission: customer=" ++ toString custid ++ " not found")))) := by
  refine ⟨?_, ?_, ?_⟩
  · intro s cid aid custid artist customer hA hC
    simp only [createCommission, hA, hC]
  · intro s cid aid custid hA
    simp only [createCommission, hA]
  · intro s cid aid custid artist hA hC
    simp only [createCommission, hA, hC]

/-- Claim C9 witness: the scenario's creation call (both entities present)
and a creation call on the empty state (artist absent). -/
theorem createCommission_spec_witness :
    createCommission S2 3 1 2 =
      ({ S2 with commissions := mapInsert S2.commissions 3 ⟨3, 2, 1, 100, 1, "", ⟨true, false, false, false, false, false⟩⟩ },
       Except.ok ⟨3, 2, 1, 100, 1, "", ⟨true, false, false, false, false, false⟩⟩) ∧
    createCommission initState 3 1 2 =
      (initState, Except.error (Error.NotFound ("cannot create the commission: artist=" ++ toString 1 ++ " not found"))) :=
  ⟨createCommission_spec.1 S2 3 1 2 ⟨1, "alice", 100, 1⟩ ⟨2, "bob"⟩ (by decide) (by decide),
   createCommission_spec.2.1 initState 3 1 2 (by decide)⟩

/-- Claim C10: the `Pending` flag is set at creation and no operation ever
clears it, so every commission stored in any reachable state has
`status.Pending = true`, including accepted and terminal commissions. -/
theorem pending_invariant (s : CanisterState) (h : Reachable s) :
    ∀ (cid : Nat) (c : Commission), mapGet s.commissions cid = some c →
      c.status.Pending = true := by
  induction h with
  | init =>
    intro cid c hget
    simp [initState, mapGet] at hget
  | step h hs ih =>
    intro cid c' hget'
    rcases step_commission_tracking hs cid c' hget' with
      h1 | ⟨c0, hc0, _, hp⟩ | ⟨c0, hc0, _, _, _, hp⟩ | ⟨_, _, hp, _⟩
    · exact ih cid c' h1
    · rw [hp]
      exact ih cid c0 hc0
    · rw [hp]
      exact ih cid c0 hc0
    · exact hp

/-- Claim C10 witness: the scenario's approved (terminal) commission, reached
by actual operation steps, still has `Pending = true`. -/
theorem pending_invariant_witness :
    S8c.status.Pending = true :=
  pending_invariant S8
    (Reachable.step
      (Reachable.step
        (Reachable.step
          (Reachable.step
            (Reachable.step
              (Reachable.step Reachable.init
                (Step.createArtistStep initState 1 "alice" 100 1 (by decide)))
              (Step.createCustomerStep S1 2 "bob" (by decide)))
            (Step.createCommissionStep S2 3 1 2 (by decide)))
          (Step.acceptCommissionStep S3 3))
        (Step.submitArtworkStep S4 3 "u1"))
      (Step.approveCommissionStep S5 3))
    3 S8c (by decide)

end ArtCommission
